import Mathlib

/-!
Verification of the funckeeper recording-and-query core (src/funckeeper/core.py)
against its natural-language specification.

The Python code is shallowly embedded: pure functions become Lean functions,
the SQLite-backed record store becomes an explicit list of stored rows that
operations thread through, and calls into the Python standard library
(`inspect.getsource`, `datetime.fromisoformat`, `ast` parsing, the wall
clock) become explicit inputs describing their outcome for the call at hand.
Machine reals (`time.time()` differences) are modelled as abstract duration
units (`Nat`); SQLite TEXT comparison (`memcmp` on UTF-8 bytes) is modelled
as lexicographic comparison of code points, which agrees with byte order on
the ASCII timestamp strings involved.
-/

namespace Funckeeper

/-! ## Python values and the Serializer (`FuncKeeper._serialize_args`) -/

/-- A Python value reachable by the serializer's recursive rule set.
`pyObj` stands for any value of a type outside scalar/list/tuple/dict and
carries the text that `str(value)` would produce for it.  Python `float`
values behave exactly like the other pass-through scalars and are omitted
from the embedding. -/
inductive PyVal where
  | pyNone : PyVal
  | pyBool (b : Bool) : PyVal
  | pyInt (n : Int) : PyVal
  | pyStr (s : String) : PyVal
  | pyList (xs : List PyVal) : PyVal
  | pyTuple (xs : List PyVal) : PyVal
  | pyDict (kvs : List (PyVal × PyVal)) : PyVal
  | pyObj (render : String) : PyVal

mutual

/-- Python `repr(v)` (up to quoting details that no claim depends on). -/
def pyReprOf : PyVal → String
  | .pyNone => "None"
  | .pyBool b => cond b "True" "False"
  | .pyInt n => toString n
  | .pyStr s => "\x27" ++ s ++ "\x27"
  | .pyList xs => "[" ++ pyReprList xs ++ "]"
  | .pyTuple xs => "(" ++ pyReprList xs ++ ")"
  | .pyDict kvs => "\x7b" ++ pyReprKVs kvs ++ "\x7d"
  | .pyObj r => r

def pyReprList : List PyVal → String
  | [] => ""
  | [x] => pyReprOf x
  | x :: y :: rest => pyReprOf x ++ ", " ++ pyReprList (y :: rest)

def pyReprKVs : List (PyVal × PyVal) → String
  | [] => ""
  | [(k, v)] => pyReprOf k ++ ": " ++ pyReprOf v
  | (k, v) :: kv :: rest => pyReprOf k ++ ": " ++ pyReprOf v ++ ", " ++ pyReprKVs (kv :: rest)

end

/-- Python `str(v)`: identity on strings, otherwise `repr`. -/
def pyStrOf : PyVal → String
  | .pyStr s => s
  | v => pyReprOf v

mutual

/-- `FuncKeeper._serialize_args` (core.py lines 511-520): scalars pass
through, lists and tuples map element-wise to a list, dicts map to a dict
with `str`-coerced keys and serialized values, anything else falls back to
its `str` form. -/
def serialize_args : PyVal → PyVal
  | .pyNone => .pyNone
  | .pyBool b => .pyBool b
  | .pyInt n => .pyInt n
  | .pyStr s => .pyStr s
  | .pyList xs => .pyList (serializeList xs)
  | .pyTuple xs => .pyList (serializeList xs)
  | .pyDict kvs => .pyDict (serializeKVs kvs)
  | .pyObj r => .pyStr (pyStrOf (.pyObj r))

def serializeList : List PyVal → List PyVal
  | [] => []
  | x :: xs => serialize_args x :: serializeList xs

def serializeKVs : List (PyVal × PyVal) → List (PyVal × PyVal)
  | [] => []
  | (k, v) :: kvs => (.pyStr (pyStrOf k), serialize_args v) :: serializeKVs kvs

end

mutual

theorem serialize_args_idem_aux : ∀ v, serialize_args (serialize_args v) = serialize_args v
  | .pyNone => rfl
  | .pyBool _ => rfl
  | .pyInt _ => rfl
  | .pyStr _ => rfl
  | .pyList xs => by simp [serialize_args, serializeList_idem_aux xs]
  | .pyTuple xs => by simp [serialize_args, serializeList_idem_aux xs]
  | .pyDict kvs => by simp [serialize_args, serializeKVs_idem_aux kvs]
  | .pyObj _ => rfl

theorem serializeList_idem_aux : ∀ xs, serializeList (serializeList xs) = serializeList xs
  | [] => rfl
  | x :: xs => by
      simp [serializeList, serialize_args_idem_aux x, serializeList_idem_aux xs]

theorem serializeKVs_idem_aux : ∀ kvs, serializeKVs (serializeKVs kvs) = serializeKVs kvs
  | [] => rfl
  | (k, v) :: kvs => by
      simp [serializeKVs, pyStrOf, serialize_args_idem_aux v, serializeKVs_idem_aux kvs]

end

/-- C8: `serialize` is idempotent on its own output: for every value built
from primitives, ordered sequences, mappings, and fallback values,
`serialize(serialize(x)) == serialize(x)`. -/
theorem serialize_args_idempotent (v : PyVal) :
    serialize_args (serialize_args v) = serialize_args v :=
  serialize_args_idem_aux v

/-! ## Text ordering

SQLite compares TEXT values with `memcmp` over their UTF-8 bytes, and
Python compares `str` values by code points; on the ASCII strings involved
here the two agree, and both are modelled by code-point-wise lexicographic
comparison. -/

/-- Lexicographic `≤` on code-point lists. -/
def charsLe : List Char → List Char → Bool
  | [], _ => true
  | _ :: _, [] => false
  | a :: as, b :: bs =>
      if a.toNat < b.toNat then true
      else if b.toNat < a.toNat then false
      else charsLe as bs

/-- Lexicographic `<` on code-point lists. -/
def charsLt : List Char → List Char → Bool
  | [], [] => false
  | [], _ :: _ => true
  | _ :: _, [] => false
  | a :: as, b :: bs =>
      if a.toNat < b.toNat then true
      else if b.toNat < a.toNat then false
      else charsLt as bs

/-- SQLite TEXT / Python string `≤`. -/
def textLe (s t : String) : Bool := charsLe s.data t.data

/-- SQLite TEXT / Python string `<`. -/
def textLt (s t : String) : Bool := charsLt s.data t.data

theorem charsLe_cons_lt {a b : Char} (h : a.toNat < b.toNat) (as bs : List Char) :
    charsLe (a :: as) (b :: bs) = true := by
  simp only [charsLe]
  rw [if_pos h]

theorem charsLe_cons_gt {a b : Char} (h : b.toNat < a.toNat) (as bs : List Char) :
    charsLe (a :: as) (b :: bs) = false := by
  simp only [charsLe]
  rw [if_neg (by omega), if_pos h]

theorem charsLe_cons_eq {a b : Char} (h : a.toNat = b.toNat) (as bs : List Char) :
    charsLe (a :: as) (b :: bs) = charsLe as bs := by
  simp only [charsLe]
  rw [if_neg (by omega), if_neg (by omega)]

theorem charsLe_refl : ∀ a, charsLe a a = true
  | [] => rfl
  | c :: cs => by rw [charsLe_cons_eq rfl]; exact charsLe_refl cs

theorem charsLe_total : ∀ a b, charsLe a b = true ∨ charsLe b a = true
  | [], _ => .inl rfl
  | _ :: _, [] => .inr rfl
  | a :: as, b :: bs => by
      rcases lt_trichotomy a.toNat b.toNat with h | h | h
      · exact .inl (charsLe_cons_lt h as bs)
      · rcases charsLe_total as bs with hh | hh
        · exact .inl (by rw [charsLe_cons_eq h]; exact hh)
        · exact .inr (by rw [charsLe_cons_eq h.symm]; exact hh)
      · exact .inr (charsLe_cons_lt h bs as)

theorem charsLe_trans : ∀ a b c, charsLe a b = true → charsLe b c = true →
    charsLe a c = true
  | [], _, _ => fun _ _ => rfl
  | _ :: _, [], _ => by intro h; simp [charsLe] at h
  | _ :: _, _ :: _, [] => by intro _ h; simp [charsLe] at h
  | a :: as, b :: bs, c :: cs => by
      intro hab hbc
      rcases lt_trichotomy a.toNat b.toNat with h1 | h1 | h1
      · rcases lt_trichotomy b.toNat c.toNat with h2 | h2 | h2
        · exact charsLe_cons_lt (h1.trans h2) as cs
        · exact charsLe_cons_lt (by omega) as cs
        · rw [charsLe_cons_gt h2] at hbc; exact absurd hbc (by simp)
      · rcases lt_trichotomy b.toNat c.toNat with h2 | h2 | h2
        · exact charsLe_cons_lt (by omega) as cs
        · rw [charsLe_cons_eq h1] at hab
          rw [charsLe_cons_eq h2] at hbc
          rw [charsLe_cons_eq (h1.trans h2)]
          exact charsLe_trans as bs cs hab hbc
        · rw [charsLe_cons_gt h2] at hbc; exact absurd hbc (by simp)
      · rw [charsLe_cons_gt h1] at hab; exact absurd hab (by simp)

theorem textLe_refl (s : String) : textLe s s = true := charsLe_refl s.data

theorem textLe_total (s t : String) : textLe s t = true ∨ textLe t s = true :=
  charsLe_total s.data t.data

theorem textLe_trans {s t u : String} (h1 : textLe s t = true)
    (h2 : textLe t u = true) : textLe s u = true :=
  charsLe_trans s.data t.data u.data h1 h2

/-! ## Stable insertion sort

`ORDER BY timestamp DESC` with no secondary sort term is modelled as a
stable sort over the table scanned in insertion (rowid) order: an element
is placed in front of the first already-placed element it compares
less-or-equal-to under the sort relation, so earlier-scanned rows stay in
front of equal-key rows scanned later. -/

def ordInsertBy (le : α → α → Bool) (x : α) : List α → List α
  | [] => [x]
  | y :: ys => if le x y then x :: y :: ys else y :: ordInsertBy le x ys

def insSortBy (le : α → α → Bool) : List α → List α
  | [] => []
  | x :: xs => ordInsertBy le x (insSortBy le xs)

theorem mem_ordInsertBy (le : α → α → Bool) (x z : α) :
    ∀ l : List α, z ∈ ordInsertBy le x l ↔ z = x ∨ z ∈ l
  | [] => by simp [ordInsertBy]
  | y :: ys => by
      by_cases h : le x y = true
      · simp [ordInsertBy, h]
      · simp only [ordInsertBy, if_neg h, List.mem_cons, mem_ordInsertBy le x z ys]
        tauto

theorem mem_insSortBy (le : α → α → Bool) (z : α) :
    ∀ l : List α, z ∈ insSortBy le l ↔ z ∈ l
  | [] => Iff.rfl
  | x :: xs => by
      simp only [insSortBy, mem_ordInsertBy, mem_insSortBy le z xs, List.mem_cons]

theorem perm_ordInsertBy (le : α → α → Bool) (x : α) :
    ∀ l : List α, List.Perm (ordInsertBy le x l) (x :: l)
  | [] => List.Perm.refl _
  | y :: ys => by
      by_cases h : le x y = true
      · simp [ordInsertBy, h]
      · simp only [ordInsertBy, if_neg h]
        exact ((perm_ordInsertBy le x ys).cons y).trans (List.Perm.swap x y ys)

theorem perm_insSortBy (le : α → α → Bool) :
    ∀ l : List α, List.Perm (insSortBy le l) l
  | [] => List.Perm.refl _
  | x :: xs => (perm_ordInsertBy le x (insSortBy le xs)).trans
      ((perm_insSortBy le xs).cons x)

theorem pairwise_ordInsertBy (le : α → α → Bool)
    (htot : ∀ a b, le a b = true ∨ le b a = true)
    (htrans : ∀ a b c, le a b = true → le b c = true → le a c = true)
    (x : α) : ∀ l : List α, l.Pairwise (fun a b => le a b = true) →
      (ordInsertBy le x l).Pairwise (fun a b => le a b = true)
  | [], _ => List.pairwise_singleton _ x
  | y :: ys, hl => by
      rcases List.pairwise_cons.mp hl with ⟨hy, hys⟩
      by_cases h : le x y = true
      · simp only [ordInsertBy, if_pos h]
        refine List.pairwise_cons.mpr ⟨?_, hl⟩
        intro z hz
        rcases List.mem_cons.mp hz with rfl | hz
        · exact h
        · exact htrans x y z h (hy z hz)
      · simp only [ordInsertBy, if_neg h]
        refine List.pairwise_cons.mpr ⟨?_, pairwise_ordInsertBy le htot htrans x ys hys⟩
        intro z hz
        rcases (mem_ordInsertBy le x z ys).mp hz with rfl | hz
        · rcases htot z y with h' | h'
          · exact absurd h' h
          · exact h'
        · exact hy z hz

theorem pairwise_insSortBy (le : α → α → Bool)
    (htot : ∀ a b, le a b = true ∨ le b a = true)
    (htrans : ∀ a b c, le a b = true → le b c = true → le a c = true) :
    ∀ l : List α, (insSortBy le l).Pairwise (fun a b => le a b = true)
  | [] => List.Pairwise.nil
  | x :: xs => pairwise_ordInsertBy le htot htrans x (insSortBy le xs)
      (pairwise_insSortBy le htot htrans xs)

/-! ## Data model: timestamps, errors, records, the store -/

/-- A Python `datetime`, reduced to what the claims need: its naive
ISO-8601 text and an optional UTC-offset suffix (the `tzinfo`).
`isoformat` concatenates the two; a naive datetime has no suffix. -/
structure Dt where
  naive : String
  tzSuffix : Option String
deriving DecidableEq

def Dt.isoformat (d : Dt) : String := d.naive ++ d.tzSuffix.getD ""

/-- `d.replace(tzinfo=self.timezone)` applied only when `d.tzinfo is None`,
the pattern at core.py lines 680-681 and 687-688. -/
def Dt.withStoreTz (storeTz : String) (d : Dt) : Dt :=
  match d.tzSuffix with
  | none => { d with tzSuffix := some storeTz }
  | some _ => d

/-- A Python exception: its type name, `str(e)`, and
`traceback.format_exc()`.  Re-raising the same structure models re-raising
the same exception object. -/
structure PyErr where
  typeName : String
  msg : String
  trace : String
deriving DecidableEq

/-- The record dict assembled by the wrapper (core.py lines 466-482 on
success, 487-503 on failure) before `_save_record` stamps it.  The fields
the source stores as `json.dumps(...)` text are kept as the serialized
`PyVal` trees; no claim depends on the JSON rendering, which is injective
on serializer output. -/
structure Record where
  func_name : String
  module_path : String
  source_code : String
  doc_string : String
  dependencies : List String
  args : PyVal
  kwargs : PyVal
  tags : String
  status : String
  return_value : Option PyVal
  error_type : Option String
  error_message : Option String
  error_traceback : Option String
  error_state : Option PyVal
  execution_time : Nat

/-- One row of the `function_records` table: a saved record plus the
`id` assigned by `INTEGER PRIMARY KEY AUTOINCREMENT` and the timestamp
stamped by `_save_record`. -/
structure StoredRecord extends Record where
  id : Nat
  timestamp : String

/-- AUTOINCREMENT: one more than the largest id ever assigned (the store is
append-only, so that is the largest id present). -/
def nextId (store : List StoredRecord) : Nat :=
  store.foldl (fun m r => max m r.id) 0 + 1

/-- `FuncKeeper._save_record` (core.py lines 582-597): stamps the record
with the store-timezone timestamp `nowIso` and appends it as one new row. -/
def save_record (store : List StoredRecord) (r : Record) (nowIso : String) :
    List StoredRecord :=
  store ++ [{ toRecord := r, id := nextId store, timestamp := nowIso }]

/-- `",".join(tags) if tags else ""` (an empty tag list is falsy). -/
def joinTags : Option (List String) → String
  | none => ""
  | some [] => ""
  | some (t :: ts) => t ++ (ts.foldl (fun acc u => acc ++ "," ++ u) "")

/-- `FuncKeeper._get_error_state` (core.py lines 575-580). -/
def get_error_state (args : List PyVal) (kwargs : List (PyVal × PyVal)) : PyVal :=
  .pyDict [(.pyStr "args", serialize_args (.pyTuple args)),
           (.pyStr "kwargs", serialize_args (.pyDict kwargs))]

/-! ## Capture pipeline (`FuncKeeper.__call__.decorator.wrapper`,
core.py lines 448-509)

Standard-library calls the wrapper makes are passed in as their outcome for
this invocation:

* `sourceRes`: `textwrap.dedent(inspect.getsource(func)).strip()` — the
  dedented, stripped source text, or the exception `inspect.getsource`
  raises when the source cannot be located;
* `docString`: `inspect.getdoc(func) or ""`;
* `depsRes`: the outcome of `self._get_dependencies(func)`;
* `outcome`: the outcome of `func(*args, **kwargs)`;
* `introTime` / `callTime`: wall-clock time spent in lines 455-462
  (introspection) and inside `func` respectively; `time.time()` is read at
  line 452, before introspection, so the stored duration is their sum;
* `nowIso`: the timestamp `_save_record` stamps at write time. -/
structure CallCtx where
  sourceRes : Except PyErr String
  docString : String
  depsRes : Except PyErr (List String)
  funcName : String
  moduleFile : String
  args : List PyVal
  kwargs : List (PyVal × PyVal)
  outcome : Except PyErr PyVal
  introTime : Nat
  callTime : Nat
  nowIso : String

/-- Lines 459-462: the dependency scan is guarded by `try`/`except` and
degrades to `{"imports": []}` on failure. -/
def depsOf (ctx : CallCtx) : List String :=
  match ctx.depsRes with
  | .ok d => d
  | .error _ => []

/-- The success-record dict of core.py lines 466-482. -/
def successRecord (tags : Option (List String)) (ctx : CallCtx) (src : String)
    (deps : List String) (v : PyVal) : Record :=
  { func_name := ctx.funcName
    module_path := ctx.moduleFile
    source_code := src
    doc_string := ctx.docString
    dependencies := deps
    args := serialize_args (.pyTuple ctx.args)
    kwargs := serialize_args (.pyDict ctx.kwargs)
    tags := joinTags tags
    status := "success"
    return_value := some (serialize_args v)
    error_type := none
    error_message := none
    error_traceback := none
    error_state := none
    execution_time := ctx.introTime + ctx.callTime }

/-- The error-record dict of core.py lines 487-503. -/
def errorRecord (tags : Option (List String)) (ctx : CallCtx) (src : String)
    (deps : List String) (e : PyErr) : Record :=
  { func_name := ctx.funcName
    module_path := ctx.moduleFile
    source_code := src
    doc_string := ctx.docString
    dependencies := deps
    args := serialize_args (.pyTuple ctx.args)
    kwargs := serialize_args (.pyDict ctx.kwargs)
    tags := joinTags tags
    status := "error"
    return_value := none
    error_type := some e.typeName
    error_message := some e.msg
    error_traceback := some e.trace
    error_state := some (get_error_state ctx.args ctx.kwargs)
    execution_time := ctx.introTime + ctx.callTime }

/-- The wrapped callable.  Line 455 (`inspect.getsource`) runs outside any
`try`, so a source-retrieval failure propagates before `func` is called and
before anything is saved.  The dependency scan (lines 459-462) is guarded
and degrades to an empty import list.  The `try` of line 464 returns the
result after saving a success record, and the bare `raise` of line 505
re-raises the original exception after saving an error record. -/
def wrapper (tags : Option (List String)) (ctx : CallCtx)
    (store : List StoredRecord) : Except PyErr PyVal × List StoredRecord :=
  match ctx.sourceRes with
  | .error e => (.error e, store)
  | .ok src =>
    match ctx.outcome with
    | .ok v =>
      (.ok v, save_record store (successRecord tags ctx src (depsOf ctx) v) ctx.nowIso)
    | .error e =>
      (.error e, save_record store (errorRecord tags ctx src (depsOf ctx) e) ctx.nowIso)

/-! ## Concrete invocation contexts used as inputs for the claims -/

/-- The exception `inspect.getsource` raises for a function whose source
cannot be located (e.g. defined in a REPL or via `exec`). -/
def srcFailErr : PyErr :=
  { typeName := "OSError", msg := "could not get source code", trace := "tb-getsource" }

/-- An invocation whose function would return `7`, but whose source cannot
be located. -/
def ctxNoSource : CallCtx :=
  { sourceRes := .error srcFailErr, docString := "", depsRes := .ok [],
    funcName := "f", moduleFile := "/m.py", args := [], kwargs := [],
    outcome := .ok (.pyInt 7), introTime := 0, callTime := 0,
    nowIso := "2024-06-01T00:00:00+08:00" }

/-- An invocation whose function would return `"ran"`, but whose source
cannot be located. -/
def ctxNoSource2 : CallCtx :=
  { sourceRes := .error srcFailErr, docString := "", depsRes := .ok [],
    funcName := "g", moduleFile := "/m.py", args := [.pyInt 1], kwargs := [],
    outcome := .ok (.pyStr "ran"), introTime := 0, callTime := 0,
    nowIso := "2024-06-01T00:00:00+08:00" }

/-- A normal successful invocation. -/
def ctxOk : CallCtx :=
  { sourceRes := .ok "def f(x):\n    return 7", docString := "doc of f",
    depsRes := .ok ["json"], funcName := "f", moduleFile := "/m.py",
    args := [.pyInt 1], kwargs := [(.pyStr "k", .pyBool true)],
    outcome := .ok (.pyInt 7), introTime := 1, callTime := 2,
    nowIso := "2024-06-01T00:00:00+08:00" }

/-- An invocation in which the wrapped function raises `ValueError`. -/
def ctxRaises : CallCtx :=
  { sourceRes := .ok "def g():\n    raise ValueError(\x22bad\x22)", docString := "",
    depsRes := .ok [], funcName := "g", moduleFile := "/m.py",
    args := [], kwargs := [],
    outcome := .error { typeName := "ValueError", msg := "bad", trace := "tb-g" },
    introTime := 0, callTime := 1, nowIso := "2024-06-01T00:00:01+08:00" }

/-- A successful invocation whose dependency scan fails. -/
def ctxDepFail : CallCtx :=
  { sourceRes := .ok "def h():\n    return None", docString := "",
    depsRes := .error { typeName := "SyntaxError", msg := "bad parse", trace := "tb-ast" },
    funcName := "h", moduleFile := "/m.py", args := [], kwargs := [],
    outcome := .ok .pyNone, introTime := 0, callTime := 0,
    nowIso := "2024-06-01T00:00:02+08:00" }

/-- A successful invocation spending 1 time unit on introspection and 2
inside the wrapped function. -/
def ctxTimed : CallCtx :=
  { sourceRes := .ok "def t():\n    return None", docString := "",
    depsRes := .ok [], funcName := "t", moduleFile := "/m.py",
    args := [], kwargs := [], outcome := .ok .pyNone,
    introTime := 1, callTime := 2, nowIso := "2024-06-01T00:00:03+08:00" }

/-! ## C1 — wrapper transparency -/

/-- C1, counterexample: the claim quantifies over *every* function; for a
function whose source `inspect.getsource` cannot locate, the wrapper raises
the introspection error (line 455 is outside any `try`) instead of
returning the value the function itself would return, so the wrapped call
does not agree with the direct call. -/
theorem wrapper_transparency_cex :
    (wrapper none ctxNoSource []).1 = .error srcFailErr ∧
    ctxNoSource.outcome = .ok (.pyInt 7) ∧
    (wrapper none ctxNoSource []).1 ≠ ctxNoSource.outcome :=
  ⟨rfl, rfl, fun h => by simp [wrapper, ctxNoSource] at h⟩

/-- C1 (amended): for every function whose source retrieval succeeds, the
wrapped call is transparent — it returns exactly the value the wrapped
function returns, and when the wrapped function raises it re-raises that
same error unchanged (same object in the model: same type name, message,
and trace). -/
theorem wrapper_transparency (tags : Option (List String)) (ctx : CallCtx)
    (store : List StoredRecord) (src : String)
    (h : ctx.sourceRes = .ok src) :
    (wrapper tags ctx store).1 = ctx.outcome := by
  cases ho : ctx.outcome <;> simp [wrapper, h, ho]

/-- C1 witness: `wrapper_transparency` at `ctxOk`. -/
theorem wrapper_transparency_witness :
    ctxOk.sourceRes = .ok "def f(x):\n    return 7" ∧
    (wrapper none ctxOk []).1 = ctxOk.outcome :=
  ⟨rfl, wrapper_transparency none ctxOk [] _ rfl⟩

/-! ## C2 — exactly one record per invocation -/

/-- C2: whenever the wrapped function actually runs — i.e. the call got
past source retrieval, which is the only statement before the recording
`try` that can fail — exactly one record is appended to the store, whether
the function returns normally or raises. -/
theorem wrapper_saves_one_record (tags : Option (List String)) (ctx : CallCtx)
    (store : List StoredRecord) (src : String)
    (h : ctx.sourceRes = .ok src) :
    ∃ r : StoredRecord, (wrapper tags ctx store).2 = store ++ [r] := by
  cases ho : ctx.outcome with
  | ok v =>
      exact ⟨{ toRecord := successRecord tags ctx src (depsOf ctx) v,
               id := nextId store, timestamp := ctx.nowIso },
             by simp [wrapper, h, ho, save_record]⟩
  | error e =>
      exact ⟨{ toRecord := errorRecord tags ctx src (depsOf ctx) e,
               id := nextId store, timestamp := ctx.nowIso },
             by simp [wrapper, h, ho, save_record]⟩

/-- C2 witness: `wrapper_saves_one_record` on the raising invocation
`ctxRaises` over the empty store. -/
theorem wrapper_saves_one_record_witness :
    ctxRaises.sourceRes = .ok "def g():\n    raise ValueError(\x22bad\x22)" ∧
    ∃ r : StoredRecord, (wrapper (some ["t1", "t2"]) ctxRaises []).2 = [] ++ [r] :=
  ⟨rfl, wrapper_saves_one_record (some ["t1", "t2"]) ctxRaises [] _ rfl⟩

/-! ## C3 — introspection failure is non-fatal -/

/-- C3, counterexample: when the source text cannot be located, the wrapper
raises before running the wrapped function: the caller never receives the
function's result (`"ran"`) and no record is written, so instrumentation
did abort the call. -/
theorem introspection_nonfatal_cex :
    (wrapper none ctxNoSource2 []).2 = [] ∧
    (wrapper none ctxNoSource2 []).1 = .error srcFailErr ∧
    ctxNoSource2.outcome = .ok (.pyStr "ran") :=
  ⟨rfl, rfl, rfl⟩

/-- C3 (amended): a dependency-scan failure is non-fatal — the wrapped
function still runs, its outcome reaches the caller unchanged, exactly one
record is still written, and the dependency metadata degrades to the empty
list; a source-retrieval failure, by contrast, aborts the call before the
wrapped function runs (line 455 is outside any `try`). -/
theorem depscan_failure_nonfatal (tags : Option (List String)) (ctx : CallCtx)
    (store : List StoredRecord) (src : String) (e : PyErr)
    (hs : ctx.sourceRes = .ok src) (hd : ctx.depsRes = .error e) :
    (wrapper tags ctx store).1 = ctx.outcome ∧
    ∃ r : StoredRecord, (wrapper tags ctx store).2 = store ++ [r] ∧
      r.dependencies = [] := by
  refine ⟨wrapper_transparency tags ctx store src hs, ?_⟩
  have hdeps : depsOf ctx = [] := by simp [depsOf, hd]
  cases ho : ctx.outcome with
  | ok v =>
      exact ⟨{ toRecord := successRecord tags ctx src (depsOf ctx) v,
               id := nextId store, timestamp := ctx.nowIso },
             by simp [wrapper, hs, ho, save_record],
             by simp [successRecord, hdeps]⟩
  | error e =>
      exact ⟨{ toRecord := errorRecord tags ctx src (depsOf ctx) e,
               id := nextId store, timestamp := ctx.nowIso },
             by simp [wrapper, hs, ho, save_record],
             by simp [errorRecord, hdeps]⟩

/-- C3 witness: `depscan_failure_nonfatal` at `ctxDepFail`. -/
theorem depscan_failure_nonfatal_witness :
    ctxDepFail.sourceRes = .ok "def h():\n    return None" ∧
    ((wrapper none ctxDepFail []).1 = ctxDepFail.outcome ∧
      ∃ r : StoredRecord, (wrapper none ctxDepFail []).2 = [] ++ [r] ∧
        r.dependencies = []) :=
  ⟨rfl, depscan_failure_nonfatal none ctxDepFail [] _ _ rfl rfl⟩

/-! ## C4 — execution_time measurement window -/

/-- C4: the timer starts at line 452, before source retrieval, docstring
extraction and the dependency scan, so the stored `execution_time` is
introspection time plus call time.  At `ctxTimed` (1 unit of introspection,
2 units inside the function) the stored duration is 3, not the 2 units the
wrapped function itself ran. -/
theorem execution_time_includes_introspection :
    ((wrapper none ctxTimed []).2.map fun r => r.execution_time) = [3] ∧
    ctxTimed.callTime = 2 :=
  ⟨rfl, rfl⟩

/-! ## Query engine: `FuncKeeper.search` (core.py lines 632-757)

`LIKE '%kw%'` on SQLite TEXT is a case-insensitive (ASCII) substring test;
on a NULL column it is not satisfied.  A `WHERE`-filtered full-table scan
visits rows in insertion (rowid) order, and `ORDER BY timestamp DESC` with
no secondary term is the stable descending sort over that scan. -/

def lowerChars (cs : List Char) : List Char := cs.map Char.toLower

def lowerStr (s : String) : String := String.mk (lowerChars s.data)

def isPrefixCh : List Char → List Char → Bool
  | [], _ => true
  | _ :: _, [] => false
  | a :: as, b :: bs => a == b && isPrefixCh as bs

def hasSubChars (n : List Char) : List Char → Bool
  | [] => n.isEmpty
  | c :: rest => isPrefixCh n (c :: rest) || hasSubChars n rest

/-- `field LIKE '%pat%'` (case-insensitive substring). -/
def likeContains (field pat : String) : Bool :=
  hasSubChars (lowerChars pat.data) (lowerChars field.data)

/-- `LIKE` applied to a nullable column: `NULL LIKE p` is not true. -/
def likeContainsOpt : Option String → String → Bool
  | none, _ => false
  | some f, pat => likeContains f pat

/-- Arguments of `FuncKeeper.search`. -/
structure SearchFilter where
  keyword : Option String
  tags : Option (List String)
  status : Option String
  startDate : Option Dt
  endDate : Option Dt

/-- `search` with every argument left at its `None` default. -/
def noFilter : SearchFilter :=
  { keyword := none, tags := none, status := none, startDate := none, endDate := none }

/-- The WHERE clause `search` assembles (core.py lines 652-692): keyword
against `func_name`/`source_code`/`doc_string`/`error_message` (OR), any of
the requested tags against the tag blob (OR), exact status, and inclusive
date bounds whose naive datetimes are first given the store's timezone
(lines 680-681 and 687-688).  Falsy arguments (`""`, `[]`) add no
condition; all added conditions combine with AND. -/
def search_row_match (storeTz : String) (f : SearchFilter) (r : StoredRecord) : Bool :=
  (match f.keyword with
   | none => true
   | some kw =>
       if kw = "" then true
       else likeContains r.func_name kw || likeContains r.source_code kw ||
            likeContains r.doc_string kw || likeContainsOpt r.error_message kw) &&
  (match f.tags with
   | none => true
   | some [] => true
   | some (t :: ts) => (t :: ts).any fun tg => likeContains r.tags tg) &&
  (match f.status with
   | none => true
   | some st => if st = "" then true else r.status == st) &&
  (match f.startDate with
   | none => true
   | some d => textLe (d.withStoreTz storeTz).isoformat r.timestamp) &&
  (match f.endDate with
   | none => true
   | some d => textLe r.timestamp (d.withStoreTz storeTz).isoformat)

/-- `ORDER BY timestamp DESC`: `a` may precede `b` when `b`'s timestamp is
at most `a`'s. -/
def tsDesc (a b : StoredRecord) : Bool := textLe b.timestamp a.timestamp

/-- The row sequence the `search` cursor yields: the WHERE-filtered scan in
insertion order, stably sorted by timestamp descending. -/
def search_rows (storeTz : String) (f : SearchFilter)
    (store : List StoredRecord) : List StoredRecord :=
  insSortBy tsDesc (store.filter (search_row_match storeTz f))

/-- `FuncKeeper._parse_timestamp` (core.py lines 759-769):
`datetime.fromisoformat` (passed in as `parse`), store timezone attached
when the parsed value is naive; on `ValueError` it warns and returns
`datetime.now(self.timezone)` — the query-time current instant `now`. -/
def parse_timestamp (parse : String → Option Dt) (storeTz : String) (now : Dt)
    (s : String) : Dt :=
  match parse s with
  | some dt => dt.withStoreTz storeTz
  | none => now

/-- The compact per-row view `search` returns (core.py lines 721-744). -/
structure SearchResult where
  id : Nat
  function : String
  documentation : String
  timestampIso : String
  executionTime : Nat
  argsVal : PyVal
  kwargsVal : PyVal
  returnVal : Option PyVal
  errorMsg : Option String

/-- One result dict: the reported timestamp is the stored text re-parsed
through `_parse_timestamp` and re-serialized with `isoformat`. -/
def project_row (parse : String → Option Dt) (storeTz : String) (now : Dt)
    (r : StoredRecord) : SearchResult :=
  { id := r.id
    function := r.func_name
    documentation := r.doc_string
    timestampIso := (parse_timestamp parse storeTz now r.timestamp).isoformat
    executionTime := r.execution_time
    argsVal := r.args
    kwargsVal := r.kwargs
    returnVal := if r.status == "success" then r.return_value else none
    errorMsg := if r.status == "success" then none else r.error_message }

/-- `FuncKeeper.search`. -/
def search (parse : String → Option Dt) (storeTz : String) (f : SearchFilter)
    (now : Dt) (store : List StoredRecord) : List SearchResult :=
  (search_rows storeTz f store).map (project_row parse storeTz now)

/-! ## C5 — search result ordering -/

/-- Adjacent-pair order of `search` output: timestamps never increase, and
rows with equal timestamps keep insertion order ascending (smaller id
first). -/
def newest_first_stable (a b : StoredRecord) : Prop :=
  textLe b.timestamp a.timestamp = true ∧
  (a.timestamp = b.timestamp → a.id ≤ b.id)

theorem stable_ordInsert (x : StoredRecord) :
    ∀ l : List StoredRecord, l.Pairwise newest_first_stable →
      (∀ z ∈ l, x.id ≤ z.id) →
      (ordInsertBy tsDesc x l).Pairwise newest_first_stable
  | [], _, _ => List.pairwise_singleton _ x
  | y :: ys, hl, hid => by
      rcases List.pairwise_cons.mp hl with ⟨hy, hys⟩
      by_cases h : tsDesc x y = true
      · simp only [ordInsertBy, if_pos h]
        refine List.pairwise_cons.mpr ⟨?_, hl⟩
        intro z hz
        rcases List.mem_cons.mp hz with rfl | hz
        · exact ⟨h, fun _ => hid z (List.mem_cons_self _ _)⟩
        · refine ⟨textLe_trans (hy z hz).1 h, fun _ => hid z (List.mem_cons_of_mem _ hz)⟩
      · simp only [ordInsertBy, if_neg h]
        simp only [tsDesc] at h
        have hfalse : textLe y.timestamp x.timestamp = false := by
          cases hb : textLe y.timestamp x.timestamp with
          | true => exact absurd hb h
          | false => rfl
        refine List.pairwise_cons.mpr
          ⟨?_, stable_ordInsert x ys hys fun z hz => hid z (List.mem_cons_of_mem _ hz)⟩
        intro z hz
        rcases (mem_ordInsertBy tsDesc x z ys).mp hz with hzx | hz
        · rw [hzx]
          refine ⟨?_, fun tie => ?_⟩
          · rcases textLe_total x.timestamp y.timestamp with hh | hh
            · exact hh
            · exact absurd hh (by simp [hfalse])
          · rw [tie, textLe_refl] at hfalse
            simp at hfalse
        · exact hy z hz

theorem stable_insSort :
    ∀ l : List StoredRecord, l.Pairwise (fun a b => a.id ≤ b.id) →
      (insSortBy tsDesc l).Pairwise newest_first_stable
  | [], _ => List.Pairwise.nil
  | x :: xs, h => by
      rcases List.pairwise_cons.mp h with ⟨hx, hxs⟩
      exact stable_ordInsert x (insSortBy tsDesc xs) (stable_insSort xs hxs)
        fun z hz => hx z ((mem_insSortBy tsDesc z xs).mp hz)

/-- All record fields shared by the concrete query-engine rows below. -/
def baseRec : Record :=
  { func_name := "f", module_path := "/m.py", source_code := "def f(): return 1",
    doc_string := "", dependencies := [], args := .pyList [], kwargs := .pyDict [],
    tags := "", status := "success", return_value := some .pyNone,
    error_type := none, error_message := none, error_traceback := none,
    error_state := none, execution_time := 1 }

/-- First-inserted row; same timestamp as `rowTwo`. -/
def rowOne : StoredRecord :=
  { toRecord := baseRec, id := 1, timestamp := "2024-06-01T10:00:00+08:00" }

/-- Second-inserted row; same timestamp as `rowOne`. -/
def rowTwo : StoredRecord :=
  { toRecord := baseRec, id := 2, timestamp := "2024-06-01T10:00:00+08:00" }

/-- C5, counterexample: two records with equal timestamps come back from
`search` in insertion order ascending — the earlier-inserted id 1 first —
not in the insertion-descending order the claim states (which would be
`[2, 1]`). -/
theorem search_tie_order_cex :
    ((search_rows "+08:00" noFilter [rowOne, rowTwo]).map fun r => r.id) = [1, 2] ∧
    rowOne.timestamp = rowTwo.timestamp ∧ rowOne.id < rowTwo.id :=
  ⟨rfl, rfl, Nat.lt_succ_self 1⟩

/-- C5 (amended): `search` returns matching records ordered by timestamp
descending (newest first); records with equal timestamps keep insertion
order ascending (the earlier-inserted row first), because the SQL has no
secondary sort term and the stable sort preserves the scan order. -/
theorem search_newest_first (storeTz : String) (f : SearchFilter)
    (store : List StoredRecord)
    (h : store.Pairwise fun a b => a.id ≤ b.id) :
    (search_rows storeTz f store).Pairwise newest_first_stable :=
  stable_insSort _ (List.Pairwise.sublist (List.filter_sublist _) h)

/-- C5 witness: `search_newest_first` on the two-row store. -/
theorem search_newest_first_witness :
    ([rowOne, rowTwo].Pairwise fun a b => a.id ≤ b.id) ∧
    (search_rows "+08:00" noFilter [rowOne, rowTwo]).Pairwise newest_first_stable := by
  have hp : [rowOne, rowTwo].Pairwise fun a b => a.id ≤ b.id := by
    simp [List.pairwise_cons, rowOne, rowTwo]
  exact ⟨hp, search_newest_first "+08:00" noFilter [rowOne, rowTwo] hp⟩

/-! ## C10 — unparseable stored timestamps -/

/-- A stored row whose timestamp text is not ISO-8601. -/
def rowBadTs : StoredRecord :=
  { toRecord := baseRec, id := 9, timestamp := "not-a-timestamp" }

/-- A first query-execution instant. -/
def cNow1 : Dt := { naive := "2025-01-01T00:00:00", tzSuffix := some "+08:00" }

/-- A second, later query-execution instant. -/
def cNow2 : Dt := { naive := "2025-01-02T00:00:00", tzSuffix := some "+08:00" }

/-- C10: a record whose stored timestamp cannot be parsed is still
returned by `search` (no exception), with its reported timestamp silently
replaced by the query-time current instant; running the same query at two
different instants therefore reports two different timestamps for the same
record. -/
theorem unparseable_timestamp_fallback (parse : String → Option Dt)
    (storeTz : String) (now1 now2 : Dt) (store : List StoredRecord)
    (r : StoredRecord) (hr : r ∈ store) (hbad : parse r.timestamp = none)
    (hne : now1.isoformat ≠ now2.isoformat) :
    project_row parse storeTz now1 r ∈ search parse storeTz noFilter now1 store ∧
    (project_row parse storeTz now1 r).id = r.id ∧
    (project_row parse storeTz now1 r).timestampIso = now1.isoformat ∧
    project_row parse storeTz now2 r ∈ search parse storeTz noFilter now2 store ∧
    (project_row parse storeTz now2 r).timestampIso = now2.isoformat ∧
    (project_row parse storeTz now1 r).timestampIso ≠
      (project_row parse storeTz now2 r).timestampIso := by
  have hmatch : search_row_match storeTz noFilter r = true := rfl
  have hmem : ∀ now : Dt,
      project_row parse storeTz now r ∈ search parse storeTz noFilter now store := by
    intro now
    refine List.mem_map_of_mem _ ?_
    exact (mem_insSortBy tsDesc r _).mpr (List.mem_filter.mpr ⟨hr, hmatch⟩)
  have hts : ∀ now : Dt,
      (project_row parse storeTz now r).timestampIso = now.isoformat := by
    intro now
    simp [project_row, parse_timestamp, hbad]
  refine ⟨hmem now1, rfl, hts now1, hmem now2, hts now2, ?_⟩
  rw [hts now1, hts now2]
  exact hne

/-- C10 witness: `unparseable_timestamp_fallback` with a parser that fails
on everything, the single bad row, and two distinct query instants. -/
theorem unparseable_timestamp_fallback_witness :
    rowBadTs ∈ [rowBadTs] ∧ cNow1.isoformat ≠ cNow2.isoformat ∧
    ((fun _ => (none : Option Dt)) rowBadTs.timestamp = none) ∧
    (project_row (fun _ => none) "+08:00" cNow1 rowBadTs ∈
        search (fun _ => none) "+08:00" noFilter cNow1 [rowBadTs] ∧
      (project_row (fun _ => none) "+08:00" cNow1 rowBadTs).id = rowBadTs.id ∧
      (project_row (fun _ => none) "+08:00" cNow1 rowBadTs).timestampIso = cNow1.isoformat ∧
      project_row (fun _ => none) "+08:00" cNow2 rowBadTs ∈
        search (fun _ => none) "+08:00" noFilter cNow2 [rowBadTs] ∧
      (project_row (fun _ => none) "+08:00" cNow2 rowBadTs).timestampIso = cNow2.isoformat ∧
      (project_row (fun _ => none) "+08:00" cNow1 rowBadTs).timestampIso ≠
        (project_row (fun _ => none) "+08:00" cNow2 rowBadTs).timestampIso) :=
  ⟨List.mem_singleton.mpr rfl, by decide, rfl,
    unparseable_timestamp_fallback (fun _ => none) "+08:00" cNow1 cNow2 [rowBadTs]
      rowBadTs (List.mem_singleton.mpr rfl) rfl (by decide)⟩

/-! ## C6 — naive date bounds in `get_statistics`
(core.py lines 984-1085) -/

/-- Arguments of `FuncKeeper.get_statistics`. -/
structure StatsFilter where
  funcName : Option String
  startDate : Option Dt
  endDate : Option Dt
  status : Option String

/-- The WHERE clause `get_statistics` assembles (core.py lines 1003-1024).
Unlike `search`, the date bounds go straight through `isoformat()` with no
timezone attachment (lines 1010-1016); a status string that lowercases to
neither `success` nor `error` adds no condition. -/
def stats_row_match (f : StatsFilter) (r : StoredRecord) : Bool :=
  (match f.funcName with
   | none => true
   | some fn => if fn = "" then true else r.func_name == fn) &&
  (match f.startDate with
   | none => true
   | some d => textLe d.isoformat r.timestamp) &&
  (match f.endDate with
   | none => true
   | some d => textLe r.timestamp d.isoformat) &&
  (match f.status with
   | none => true
   | some st =>
       if st = "" then true
       else if lowerStr st == "success" then r.status == "success"
       else if lowerStr st == "error" then r.status == "error"
       else true)

/-- The record set over which `get_statistics` aggregates. -/
def statistics_rows (f : StatsFilter) (store : List StoredRecord) :
    List StoredRecord :=
  store.filter (stats_row_match f)

/-- A naive (timezone-less) noon, used as a date bound. -/
def naiveNoon : Dt := { naive := "2024-06-01T12:00:00", tzSuffix := none }

/-- A row written at noon in the store's +08:00 timezone. -/
def rowNoonPlus8 : StoredRecord :=
  { toRecord := baseRec, id := 4, timestamp := "2024-06-01T12:00:00+08:00" }

/-- `get_statistics(end_date=...)` with every other argument defaulted. -/
def statsEndOnly (d : Dt) : StatsFilter :=
  { funcName := none, startDate := none, endDate := some d, status := none }

/-- `search(end_date=...)` with every other argument defaulted. -/
def searchEndOnly (d : Dt) : SearchFilter :=
  { keyword := none, tags := none, status := none, startDate := none,
    endDate := some d }

/-- C6, counterexample: with store timezone +08:00, a record stamped
`2024-06-01T12:00:00+08:00` and the naive end bound `2024-06-01T12:00:00`,
`search` keeps the record (it localizes the bound to
`2024-06-01T12:00:00+08:00`) but `get_statistics` drops it (it compares
against the unlocalized text, and `"...+08:00" <= "..."` fails), so
statistics does not apply the rule the claim states. -/
theorem stats_naive_bound_cex :
    stats_row_match (statsEndOnly naiveNoon) rowNoonPlus8 = false ∧
    search_row_match "+08:00" (searchEndOnly naiveNoon) rowNoonPlus8 = true ∧
    statistics_rows (statsEndOnly naiveNoon) [rowNoonPlus8] = [] :=
  ⟨rfl, rfl, rfl⟩

/-- C6 (amended): `search` interprets a naive date bound in the store's
configured timezone before comparing, but `get_statistics` does not — it
compares record timestamps against the bound's bare (timezone-less)
isoformat text, so the two operations apply different rules to the same
naive bound. -/
theorem stats_bounds_not_localized (storeTz : String) (d : Dt)
    (r : StoredRecord) (h : d.tzSuffix = none) :
    stats_row_match (statsEndOnly d) r = textLe r.timestamp d.naive ∧
    stats_row_match { funcName := none, startDate := some d, endDate := none,
                      status := none } r = textLe d.naive r.timestamp ∧
    search_row_match storeTz (searchEndOnly d) r
      = textLe r.timestamp (d.naive ++ storeTz) ∧
    search_row_match storeTz { keyword := none, tags := none, status := none,
                               startDate := some d, endDate := none } r
      = textLe (d.naive ++ storeTz) r.timestamp := by
  obtain ⟨naive, tz⟩ := d
  cases h
  refine ⟨?_, ?_, ?_, ?_⟩ <;>
    simp [stats_row_match, search_row_match, statsEndOnly, searchEndOnly,
      Dt.isoformat, Dt.withStoreTz]

/-- C6 witness: `stats_bounds_not_localized` at the naive noon bound. -/
theorem stats_bounds_not_localized_witness :
    naiveNoon.tzSuffix = none ∧
    (stats_row_match (statsEndOnly naiveNoon) rowNoonPlus8
        = textLe rowNoonPlus8.timestamp naiveNoon.naive ∧
      stats_row_match { funcName := none, startDate := some naiveNoon,
                        endDate := none, status := none } rowNoonPlus8
        = textLe naiveNoon.naive rowNoonPlus8.timestamp ∧
      search_row_match "+08:00" (searchEndOnly naiveNoon) rowNoonPlus8
        = textLe rowNoonPlus8.timestamp (naiveNoon.naive ++ "+08:00") ∧
      search_row_match "+08:00" { keyword := none, tags := none, status := none,
                                  startDate := some naiveNoon, endDate := none }
          rowNoonPlus8
        = textLe (naiveNoon.naive ++ "+08:00") rowNoonPlus8.timestamp) :=
  ⟨rfl, stats_bounds_not_localized "+08:00" naiveNoon rowNoonPlus8 rfl⟩

/-! ## C7 — the dependency scan (`FuncKeeper._get_dependencies`,
core.py lines 522-573)

The `ast` walks themselves are standard-library parsing; each is passed in
as its outcome: `none` when parsing (or source retrieval) raised inside
that scan, `some names` for the import names it collected.  The function's
own structure — the outer `try` covering the function scan, the inner
`try` covering the module scan, the `not in` merge, and the final
`sorted(list(set(imports)))` — is embedded below. -/

/-- `set(...)`: duplicate elimination (iteration order is irrelevant here
because the result is sorted immediately afterwards). -/
def dedupKeep : List String → List String
  | [] => []
  | x :: xs => if x ∈ xs then dedupKeep xs else x :: dedupKeep xs

theorem mem_dedupKeep (a : String) : ∀ l : List String, a ∈ dedupKeep l ↔ a ∈ l
  | [] => Iff.rfl
  | x :: xs => by
      by_cases h : x ∈ xs
      · simp only [dedupKeep, if_pos h, mem_dedupKeep a xs, List.mem_cons]
        exact ⟨.inr, fun hh => hh.elim (fun hax => hax ▸ h) id⟩
      · simp [dedupKeep, if_neg h, List.mem_cons, mem_dedupKeep a xs]

theorem nodup_dedupKeep : ∀ l : List String, (dedupKeep l).Nodup
  | [] => List.nodup_nil
  | x :: xs => by
      by_cases h : x ∈ xs
      · simpa [dedupKeep, if_pos h] using nodup_dedupKeep xs
      · simp only [dedupKeep, if_neg h]
        exact List.nodup_cons.mpr
          ⟨fun hx => h ((mem_dedupKeep x xs).mp hx), nodup_dedupKeep xs⟩

/-- `sorted(list(set(l)))`: Python's lexicographic sort of the
deduplicated names. -/
def dedupSortStrings (l : List String) : List String :=
  insSortBy textLe (dedupKeep l)

/-- The module-scan merge loop (core.py lines 558-567): each module import
is appended only if not already collected. -/
def mergeImports (fi mi : List String) : List String :=
  mi.foldl (fun acc m => if m ∈ acc then acc else acc ++ [m]) fi

theorem mem_mergeImports (a : String) :
    ∀ (mi fi : List String), a ∈ mergeImports fi mi ↔ a ∈ fi ∨ a ∈ mi
  | [], fi => by simp [mergeImports]
  | m :: mi, fi => by
      have step : mergeImports fi (m :: mi)
          = mergeImports (if m ∈ fi then fi else fi ++ [m]) mi := rfl
      rw [step]
      by_cases h : m ∈ fi
      · rw [if_pos h, mem_mergeImports a mi fi]
        simp only [List.mem_cons]
        constructor
        · rintro (ha | ha)
          · exact .inl ha
          · exact .inr (.inr ha)
        · rintro (ha | rfl | ha)
          · exact .inl ha
          · exact .inl h
          · exact .inr ha
      · rw [if_neg h, mem_mergeImports a mi (fi ++ [m])]
        simp only [List.mem_append, List.mem_singleton, List.mem_cons]
        tauto

/-- `FuncKeeper._get_dependencies`.  `funcScan = none`: parsing the
function's source raised, the outer `except` caught it with nothing
collected, and `sorted(list(set([])))` is returned.  `moduleScan = none`:
the module was unavailable or its parse raised, the inner `except` caught
it, and only the function-body imports survive.  Otherwise the module
names found in the module are merged behind the function imports.  In every case the result
is `sorted(list(set(imports)))` and no exception escapes. -/
def get_dependencies : Option (List String) → Option (List String) → List String
  | none, _ => dedupSortStrings []
  | some fi, none => dedupSortStrings fi
  | some fi, some mi => dedupSortStrings (mergeImports fi mi)

theorem charsLt_iff : ∀ a b, charsLt a b = true ↔ (charsLe a b = true ∧ a ≠ b)
  | [], [] => by simp [charsLt, charsLe]
  | [], _ :: _ => by simp [charsLt, charsLe]
  | _ :: _, [] => by simp [charsLt, charsLe]
  | a :: as, b :: bs => by
      rcases lt_trichotomy a.toNat b.toNat with h | h | h
      · have hne : a ≠ b := fun hab => by rw [hab] at h; omega
        simp only [charsLt, charsLe]
        rw [if_pos h, if_pos h]
        simp [hne]
      · have hab : a = b := Char.eq_of_val_eq (UInt32.ext h)
        subst hab
        simp only [charsLt, charsLe]
        rw [if_neg (by omega), if_neg (by omega), if_neg (by omega),
          if_neg (by omega)]
        rw [charsLt_iff as bs]
        simp
      · have hne : a ≠ b := fun hab => by rw [hab] at h; omega
        simp only [charsLt, charsLe]
        rw [if_neg (by omega), if_pos h, if_neg (by omega), if_pos h]
        simp

theorem textLt_iff (s t : String) :
    textLt s t = true ↔ (textLe s t = true ∧ s ≠ t) := by
  rw [textLt, textLe, charsLt_iff]
  exact and_congr Iff.rfl
    ⟨fun hd hs => hd (hs ▸ rfl), fun hs hd => hs (String.ext hd)⟩

theorem sorted_dedupSortStrings (l : List String) :
    (dedupSortStrings l).Pairwise fun a b => textLt a b = true := by
  have hle : (dedupSortStrings l).Pairwise fun a b => textLe a b = true :=
    pairwise_insSortBy textLe textLe_total
      (fun a b c h1 h2 => textLe_trans h1 h2) (dedupKeep l)
  have hnd : (dedupSortStrings l).Nodup :=
    ((perm_insSortBy textLe (dedupKeep l)).nodup_iff).mpr (nodup_dedupKeep l)
  exact (hle.and hnd).imp fun hab => (textLt_iff _ _).mpr ⟨hab.1, hab.2⟩

theorem mem_dedupSortStrings (a : String) (l : List String) :
    a ∈ dedupSortStrings l ↔ a ∈ l :=
  (mem_insSortBy textLe a (dedupKeep l)).trans (mem_dedupKeep a l)

/-- C7, counterexample: the claim says *any* parse failure degrades to an
empty set, but when only the module scan fails (the inner `except` at
core.py line 568), the function-body imports survive: with a function-body
dependency `json` and a failed module scan the result is `["json"]`, not
`[]`. -/
theorem get_dependencies_module_failure_cex :
    get_dependencies (some ["json"]) none = ["json"] ∧
    ["json"] ≠ ([] : List String) :=
  ⟨rfl, by simp⟩

/-- C7 (amended): the dependency scan never raises and always returns a
lexicographically sorted, duplicate-free list; the merged result contains
exactly the union of the function-body and module imports.  On parse
failure it degrades without raising, but asymmetrically: a function-scan
failure yields the empty list, while a module-scan failure keeps the
function-body imports. -/
theorem get_dependencies_sorted_dedup (fs ms : Option (List String))
    (fi mi : List String) (s : String) :
    ((get_dependencies fs ms).Pairwise fun a b => textLt a b = true) ∧
    get_dependencies none ms = [] ∧
    (s ∈ get_dependencies (some fi) none ↔ s ∈ fi) ∧
    (s ∈ get_dependencies (some fi) (some mi) ↔ s ∈ fi ∨ s ∈ mi) := by
  refine ⟨?_, rfl, ?_, ?_⟩
  · rcases fs with _ | fi2
    · exact sorted_dedupSortStrings []
    · rcases ms with _ | mi2
      · exact sorted_dedupSortStrings fi2
      · exact sorted_dedupSortStrings (mergeImports fi2 mi2)
  · exact mem_dedupSortStrings s fi
  · exact (mem_dedupSortStrings s (mergeImports fi mi)).trans
      (mem_mergeImports s mi fi)

/-! ## C9 — schema evolution (`FuncKeeper._init_db`, core.py lines 395-442) -/

/-- The current full column set of `function_records`
(core.py lines 409-431). -/
def expected_columns : List String :=
  ["id", "func_name", "module_path", "source_code", "doc_string",
   "dependencies", "args", "kwargs", "return_value", "execution_time",
   "status", "error_type", "error_message", "error_traceback", "error_state",
   "tags", "timestamp"]

/-- The stored table: its column-name list and its rows, each row a list
of nullable cell values aligned with the columns. -/
structure DbTable where
  cols : List String
  rows : List (List (Option String))

/-- `FuncKeeper._init_db`: with no existing table, create it with the full
current column set; with an existing table, the only migration performed
is `ALTER TABLE ... ADD COLUMN doc_string TEXT` when that one column is
missing — SQLite appends the column and existing rows read NULL in it.  No
other missing column is checked or added. -/
def init_db : Option DbTable → DbTable
  | none => { cols := expected_columns, rows := [] }
  | some t =>
      if "doc_string" ∈ t.cols then t
      else { cols := t.cols ++ ["doc_string"],
             rows := t.rows.map fun r => r ++ [none] }

/-- Position of a column name in the column list. -/
def colIdx : List String → String → Option Nat
  | [], _ => none
  | c :: cs, t => if c = t then some 0 else (colIdx cs t).map (· + 1)

/-- Value of column `c` in `row` (`none` both for NULL and for an absent
column). -/
def readCell (cols : List String) (row : List (Option String))
    (c : String) : Option String :=
  match colIdx cols c with
  | none => none
  | some i => (row.get? i).getD none

theorem colIdx_append_missing :
    ∀ cols : List String, "doc_string" ∉ cols →
      colIdx (cols ++ ["doc_string"]) "doc_string" = some cols.length
  | [], _ => rfl
  | c :: cs, h => by
      have hc : c ≠ "doc_string" := fun hh => h (hh ▸ List.mem_cons_self c cs)
      have hcs : "doc_string" ∉ cs := fun hh => h (List.mem_cons_of_mem c hh)
      show (if c = "doc_string" then some 0
        else (colIdx (cs ++ ["doc_string"]) "doc_string").map (· + 1))
          = some (cs.length + 1)
      rw [if_neg hc, colIdx_append_missing cs hcs]
      rfl

theorem get_append_len :
    ∀ (l : List (Option String)) (x : Option String),
      (l ++ [x]).get? l.length = some x
  | [], _ => rfl
  | _ :: ys, x => get_append_len ys x

/-- An old-schema table predating several of the current columns. -/
def oldTable : DbTable :=
  { cols := ["id", "func_name", "args"],
    rows := [[some "1", some "f", some "[]"]] }

/-- C9, counterexample: opening a store whose table lacks several current
columns migrates only `doc_string`; the missing `tags` column (among
others) is still absent afterwards, so not every missing expected column
is added. -/
theorem init_db_cex :
    "tags" ∈ expected_columns ∧ "tags" ∉ (init_db (some oldTable)).cols := by
  constructor
  · simp [expected_columns]
  · decide

/-- C9 (amended): opening a store over an older table succeeds and is
additive but migrates only `doc_string`: when that column is missing it is
appended (no column dropped or renamed — the old columns stay, in order, a
prefix of the new list), every old row keeps its data with the new column
reading as NULL; missing columns other than `doc_string` are not added. -/
theorem init_db_adds_only_doc_string (t : DbTable)
    (row : List (Option String)) (h : "doc_string" ∉ t.cols)
    (hrow : row.length = t.cols.length) :
    (init_db (some t)).cols = t.cols ++ ["doc_string"] ∧
    (init_db (some t)).rows = t.rows.map (fun r => r ++ [none]) ∧
    (init_db (some t)).cols.take t.cols.length = t.cols ∧
    readCell (init_db (some t)).cols (row ++ [none]) "doc_string" = none := by
  have hcols : (init_db (some t)).cols = t.cols ++ ["doc_string"] := by
    simp [init_db, h]
  refine ⟨hcols, by simp [init_db, h], ?_, ?_⟩
  · rw [hcols]
    exact List.take_left _ _
  · rw [readCell, hcols, colIdx_append_missing t.cols h, ← hrow]
    show ((row ++ [none]).get? row.length).getD none = none
    rw [get_append_len row none]
    rfl

/-- C9 witness: `init_db_adds_only_doc_string` at `oldTable` and its one
row. -/
theorem init_db_adds_only_doc_string_witness :
    "doc_string" ∉ oldTable.cols ∧
    ((init_db (some oldTable)).cols = oldTable.cols ++ ["doc_string"] ∧
      (init_db (some oldTable)).rows
        = oldTable.rows.map (fun r => r ++ [none]) ∧
      (init_db (some oldTable)).cols.take oldTable.cols.length = oldTable.cols ∧
      readCell (init_db (some oldTable)).cols
        ([some "1", some "f", some "[]"] ++ [none]) "doc_string" = none) :=
  ⟨by decide,
    init_db_adds_only_doc_string oldTable [some "1", some "f", some "[]"]
      (by decide) rfl⟩

end Funckeeper
